import Mathlib

/-!
A shallow embedding of src/buzzerComponent/buzzer.c from the mangOH
DataHub-Buzzer component, together with proofs about its duty-cycle
state machine.

Modelling conventions:
* The module-level C variables (Enabled, Frequency, DutyCycleOnPercent,
  PeriodMs, BuzzerOn) become fields of an explicit state record, extended
  with a model of the Legato timer: timerRunning tracks le_timer_Start and
  le_timer_Stop, and timerIntervalMs records the last value passed to
  le_timer_SetMsInterval.
* Side effects become an explicit event list: SetBuzzerHz writes to the
  hardware sink, the three timer operations, and LE_ERROR validation
  reports.
* The numeric Data Hub payloads (C doubles) are modelled as exact
  rationals; the C cast (uint)x, applied by the handlers only to
  nonnegative values, is truncation toward zero, i.e. the floor, taken
  into Nat.
* Each push handler is a pure function from the input and the current
  state to the next state and the list of emitted events, mirroring the C
  control flow branch by branch.
-/

/-- Externally observable effects of buzzer.c: a SetBuzzerHz write of a
frequency to the hardware sink, the Legato timer operations, and an
LE_ERROR validation-failure report. -/
inductive Event where
  | setBuzzerHz (freq : Nat)
  | timerSetMsInterval (ms : Nat)
  | timerStart
  | timerStop
  | logError
  deriving DecidableEq

/-- Frequency used to turn the buzzer off (BUZZER_OFF_FREQ in buzzer.c). -/
def BUZZER_OFF_FREQ : Nat := 0

/-- The module-level mutable state of buzzer.c together with an explicit
model of the Legato duty-cycle timer. -/
structure BuzzerState where
  Enabled : Bool
  Frequency : Nat
  DutyCycleOnPercent : Nat
  PeriodMs : Nat
  BuzzerOn : Bool
  timerRunning : Bool
  timerIntervalMs : Option Nat
  deriving DecidableEq

/-- The initial values of the C module variables: disabled, 1024 Hz, 50
percent duty cycle, 2000 ms period, buzzer off, timer created but neither
armed nor started (COMPONENT_INIT). -/
def initState : BuzzerState :=
  { Enabled := false
    Frequency := 1024
    DutyCycleOnPercent := 50
    PeriodMs := 2000
    BuzzerOn := false
    timerRunning := false
    timerIntervalMs := none }

/-- The C cast (uint)q of a value the handlers have already checked to be
nonnegative: truncation toward zero, which for nonnegative q is the floor. -/
def uintOfRat (q : ℚ) : Nat := (⌊q⌋).toNat

/-- StartCycle from buzzer.c: command the sink to Frequency, set BuzzerOn,
arm the timer with the on-interval PeriodMs * DutyCycleOnPercent / 100 and
start it. -/
def StartCycle (s : BuzzerState) : BuzzerState × List Event :=
  let ms := s.PeriodMs * s.DutyCycleOnPercent / 100
  ({ s with BuzzerOn := true, timerIntervalMs := some ms, timerRunning := true },
    [Event.setBuzzerHz s.Frequency, Event.timerSetMsInterval ms, Event.timerStart])

/-- StopCycle from buzzer.c: stop the timer, and if the buzzer is on,
command the sink off and clear BuzzerOn. -/
def StopCycle (s : BuzzerState) : BuzzerState × List Event :=
  if s.BuzzerOn then
    ({ s with timerRunning := false, BuzzerOn := false },
      [Event.timerStop, Event.setBuzzerHz BUZZER_OFF_FREQ])
  else
    ({ s with timerRunning := false }, [Event.timerStop])

/-- TimerExpiryHandler from buzzer.c: while on, unless the duty cycle is
100 percent, command the sink off and rearm with the off-interval; while
off, unless the duty cycle is 0 percent, command the sink to Frequency and
rearm with the on-interval. -/
def TimerExpiryHandler (s : BuzzerState) : BuzzerState × List Event :=
  if s.BuzzerOn then
    if s.DutyCycleOnPercent < 100 then
      let ms := s.PeriodMs * (100 - s.DutyCycleOnPercent) / 100
      ({ s with BuzzerOn := false, timerIntervalMs := some ms },
        [Event.setBuzzerHz BUZZER_OFF_FREQ, Event.timerSetMsInterval ms])
    else
      (s, [])
  else
    if s.DutyCycleOnPercent > 0 then
      let ms := s.PeriodMs * s.DutyCycleOnPercent / 100
      ({ s with BuzzerOn := true, timerIntervalMs := some ms },
        [Event.setBuzzerHz s.Frequency, Event.timerSetMsInterval ms])
    else
      (s, [])

/-- EnablePushHandler from buzzer.c: ignore updates that do not change
Enabled; otherwise store the new value and start or stop the cycle. -/
def EnablePushHandler (enable : Bool) (s : BuzzerState) : BuzzerState × List Event :=
  if enable ≠ s.Enabled then
    if enable then
      StartCycle { s with Enabled := enable }
    else
      StopCycle { s with Enabled := enable }
  else
    (s, [])

/-- FrequencyPushHandler from buzzer.c: reject negative inputs, ignore
no-change updates, accept exactly the switch cases 1024, 2048, 4096, 8192
and 16384 (re-commanding the sink immediately when the buzzer is on), and
report everything else as out of range. -/
def FrequencyPushHandler (freq : ℚ) (s : BuzzerState) : BuzzerState × List Event :=
  if freq < 0 then
    (s, [Event.logError])
  else
    let intFrequency := uintOfRat freq
    if s.Frequency = intFrequency then
      (s, [])
    else if intFrequency = 1024 ∨ intFrequency = 2048 ∨ intFrequency = 4096 ∨
        intFrequency = 8192 ∨ intFrequency = 16384 then
      if s.BuzzerOn then
        ({ s with Frequency := intFrequency }, [Event.setBuzzerHz intFrequency])
      else
        ({ s with Frequency := intFrequency }, [])
    else
      (s, [Event.logError])

/-- PeriodPushHandler from buzzer.c: reject inputs outside [0.1, 3600]
seconds; otherwise convert to milliseconds by truncation and, if the
stored value changes, store it and restart the cycle via StopCycle then
StartCycle (the C code performs this restart unconditionally, without
checking Enabled). -/
def PeriodPushHandler (period : ℚ) (s : BuzzerState) : BuzzerState × List Event :=
  if period < 0.1 ∨ period > 3600 then
    (s, [Event.logError])
  else
    let periodMs := uintOfRat (period * 1000)
    if s.PeriodMs ≠ periodMs then
      let s1 := { s with PeriodMs := periodMs }
      let r2 := StopCycle s1
      let r3 := StartCycle r2.1
      (r3.1, r2.2 ++ r3.2)
    else
      (s, [])

/-- PercentPushHandler from buzzer.c: reject inputs outside [0, 100];
otherwise truncate to an integer and, if the stored value changes, store
it, and when the buzzer is currently on rearm the timer with the new
on-interval. -/
def PercentPushHandler (percent : ℚ) (s : BuzzerState) : BuzzerState × List Event :=
  if percent < 0 ∨ percent > 100 then
    (s, [Event.logError])
  else
    let intPercent := uintOfRat percent
    if s.DutyCycleOnPercent ≠ intPercent then
      if s.BuzzerOn then
        let ms := s.PeriodMs * intPercent / 100
        ({ s with DutyCycleOnPercent := intPercent, timerIntervalMs := some ms },
          [Event.timerSetMsInterval ms])
      else
        ({ s with DutyCycleOnPercent := intPercent }, [])
    else
      (s, [])

/-- The five frequencies accepted by the switch statement in
FrequencyPushHandler (its default-case error message lists exactly
these). -/
def validFreqs : List Nat := [1024, 2048, 4096, 8192, 16384]

/-- The events that can reach the buzzer component: the four Data Hub push
handlers and an expiry of the Legato timer. -/
inductive Op where
  | enablePush (enable : Bool)
  | frequencyPush (freq : ℚ)
  | periodPush (period : ℚ)
  | percentPush (percent : ℚ)
  | timerExpiry

/-- Dispatch one incoming event to the corresponding handler of buzzer.c. -/
def step : Op → BuzzerState → BuzzerState × List Event
  | Op.enablePush b, s => EnablePushHandler b s
  | Op.frequencyPush q, s => FrequencyPushHandler q s
  | Op.periodPush q, s => PeriodPushHandler q s
  | Op.percentPush q, s => PercentPushHandler q s
  | Op.timerExpiry, s => TimerExpiryHandler s

/-- States reachable from the initial state by push updates and timer
expiries, where the timer only fires while it is running. -/
inductive Reachable : BuzzerState → Prop
  | init : Reachable initState
  | next (op : Op) {s : BuzzerState} (h : Reachable s)
      (hfire : op = Op.timerExpiry → s.timerRunning = true) :
      Reachable (step op s).1

/-- The sink commands (SetBuzzerHz writes) contained in an event list, in
order. -/
def sinkCommands (es : List Event) : List Nat :=
  es.filterMap fun e =>
    match e with
    | Event.setBuzzerHz f => some f
    | _ => none

/-- The timer intervals armed (le_timer_SetMsInterval calls) in an event
list, in order. -/
def armedIntervals (es : List Event) : List Nat :=
  es.filterMap fun e =>
    match e with
    | Event.timerSetMsInterval ms => some ms
    | _ => none

/-- The interval computation PeriodMs * percent / 100 of buzzer.c carried
out in 32-bit unsigned arithmetic: the product is reduced modulo 2 to the
32 before the division, as a C uint multiplication would do. -/
def intervalMsU32 (p d : Nat) : Nat := p * d % 2 ^ 32 / 100

lemma uintOfRat_eq (q : ℚ) (n : ℕ) (h1 : (n : ℚ) ≤ q) (h2 : q < n + 1) :
    uintOfRat q = n := by
  have hfl : ⌊q⌋ = (n : ℤ) := by
    rw [Int.floor_eq_iff]
    constructor
    · exact_mod_cast h1
    · push_cast
      exact h2
  rw [uintOfRat, hfl, Int.toNat_natCast]

lemma uintOfRat_le_of_le (q : ℚ) (n : ℕ) (h : q ≤ (n : ℚ)) : uintOfRat q ≤ n := by
  rw [uintOfRat]
  rw [Int.toNat_le]
  calc ⌊q⌋ ≤ ⌊(n : ℚ)⌋ := Int.floor_mono h
    _ = (n : ℤ) := Int.floor_natCast n

lemma le_uintOfRat_of_le (n : ℕ) (q : ℚ) (h : (n : ℚ) ≤ q) : n ≤ uintOfRat q := by
  have hfl : (n : ℤ) ≤ ⌊q⌋ := Int.le_floor.mpr (by exact_mod_cast h)
  have := Int.toNat_le_toNat hfl
  rwa [Int.toNat_natCast] at this

lemma uintOfRat_natCast (n : ℕ) : uintOfRat (n : ℚ) = n := by
  rw [uintOfRat, Int.floor_natCast, Int.toNat_natCast]

/-- The numeric bounds the push handlers maintain on the stored period and
duty-cycle percentage: the period stays in the validated range in
milliseconds and the percentage stays at most 100. -/
def ValidSetpoints (s : BuzzerState) : Prop :=
  100 ≤ s.PeriodMs ∧ s.PeriodMs ≤ 3600000 ∧ s.DutyCycleOnPercent ≤ 100

lemma StartCycle_fst_PeriodMs (s : BuzzerState) : (StartCycle s).1.PeriodMs = s.PeriodMs := rfl

lemma StartCycle_fst_Duty (s : BuzzerState) :
    (StartCycle s).1.DutyCycleOnPercent = s.DutyCycleOnPercent := rfl

lemma StopCycle_fst_PeriodMs (s : BuzzerState) : (StopCycle s).1.PeriodMs = s.PeriodMs := by
  rw [StopCycle]
  split <;> rfl

lemma StopCycle_fst_Duty (s : BuzzerState) :
    (StopCycle s).1.DutyCycleOnPercent = s.DutyCycleOnPercent := by
  rw [StopCycle]
  split <;> rfl

lemma validSetpoints_step (op : Op) (s : BuzzerState) (h : ValidSetpoints s) :
    ValidSetpoints (step op s).1 := by
  obtain ⟨h1, h2, h3⟩ := h
  cases op with
  | enablePush b =>
    simp only [step, EnablePushHandler, StartCycle, StopCycle]
    split_ifs <;> exact ⟨h1, h2, h3⟩
  | frequencyPush q =>
    simp only [step, FrequencyPushHandler]
    split_ifs <;> exact ⟨h1, h2, h3⟩
  | periodPush q =>
    by_cases hrange : q < 0.1 ∨ q > 3600
    · simp only [step, PeriodPushHandler, if_pos hrange]
      exact ⟨h1, h2, h3⟩
    · by_cases hchange : s.PeriodMs ≠ uintOfRat (q * 1000)
      · have hr := hrange
        push_neg at hr
        obtain ⟨hlo, hhi⟩ := hr
        simp only [step, PeriodPushHandler, if_neg hrange, if_pos hchange, ValidSetpoints,
          StartCycle_fst_PeriodMs, StopCycle_fst_PeriodMs,
          StartCycle_fst_Duty, StopCycle_fst_Duty]
        refine ⟨?_, ?_, h3⟩
        · exact le_uintOfRat_of_le 100 (q * 1000) (by push_cast; linarith)
        · exact uintOfRat_le_of_le (q * 1000) 3600000 (by push_cast; linarith)
      · simp only [step, PeriodPushHandler, if_neg hrange, if_neg hchange]
        exact ⟨h1, h2, h3⟩
  | percentPush q =>
    simp only [step, PercentPushHandler]
    split_ifs with hrange hchange hon
    · exact ⟨h1, h2, h3⟩
    · push_neg at hrange
      exact ⟨h1, h2, uintOfRat_le_of_le q 100 hrange.2⟩
    · push_neg at hrange
      exact ⟨h1, h2, uintOfRat_le_of_le q 100 hrange.2⟩
    · exact ⟨h1, h2, h3⟩
  | timerExpiry =>
    simp only [step, TimerExpiryHandler]
    split_ifs <;> exact ⟨h1, h2, h3⟩

lemma reachable_valid {s : BuzzerState} (h : Reachable s) : ValidSetpoints s := by
  induction h with
  | init => exact ⟨by norm_num [initState], by norm_num [initState], by norm_num [initState]⟩
  | next op hr hfire ih => exact validSetpoints_step op _ ih

/-- The start state posited by claim C4: disabled, Frequency 1024 Hz,
period 1000 ms, duty cycle 20 percent. -/
def c4StartState : BuzzerState :=
  { initState with PeriodMs := 1000, DutyCycleOnPercent := 20 }

/-- Enabling from the C4 start state. -/
def c4Step1 : BuzzerState × List Event := EnablePushHandler true c4StartState

/-- First timer expiry after enabling. -/
def c4Step2 : BuzzerState × List Event := TimerExpiryHandler c4Step1.1

/-- Second timer expiry. -/
def c4Step3 : BuzzerState × List Event := TimerExpiryHandler c4Step2.1

/-- Third timer expiry. -/
def c4Step4 : BuzzerState × List Event := TimerExpiryHandler c4Step3.1

/-- C4: from the disabled state with Frequency 1024, PeriodMillis 1000 and
DutyPercent 20, enabling and then letting the timer fire through two full
periods produces exactly the sink commands 1024, 0, 1024, 0, with the
timer intervals armed at each step being 200 ms, 800 ms, 200 ms, 800 ms. -/
theorem waveformTwoPeriods :
    sinkCommands c4Step1.2 = [1024] ∧ armedIntervals c4Step1.2 = [200] ∧
    sinkCommands c4Step2.2 = [0] ∧ armedIntervals c4Step2.2 = [800] ∧
    sinkCommands c4Step3.2 = [1024] ∧ armedIntervals c4Step3.2 = [200] ∧
    sinkCommands c4Step4.2 = [0] ∧ armedIntervals c4Step4.2 = [800] := by
  decide

/-- C7: applying a disable update while already disabled is a no-op: no
sink command, no timer operation, state unchanged. -/
theorem disableIdempotent (s : BuzzerState) (h : s.Enabled = false) :
    EnablePushHandler false s = (s, []) := by
  simp [EnablePushHandler, h]

/-- C7 witness: disabling in the initial (disabled) state. -/
theorem disableIdempotent_witness : EnablePushHandler false initState = (initState, []) :=
  disableIdempotent initState rfl

/-- C1 (amended): for a stored frequency in the accepted set, pushing any
integer member of {1024, 2048, 4096, 8192, 16384} stores that value, and
pushing any integer outside that set, or any negative integer, leaves the
whole state unchanged and reports a validation failure. -/
theorem frequencyValidation (s : BuzzerState) (hs : s.Frequency ∈ validFreqs) :
    (∀ n : ℕ, n ∈ validFreqs → (FrequencyPushHandler (n : ℚ) s).1.Frequency = n) ∧
    (∀ z : ℤ, (z < 0 ∨ z.toNat ∉ validFreqs) →
      (FrequencyPushHandler (z : ℚ) s).1 = s ∧
      Event.logError ∈ (FrequencyPushHandler (z : ℚ) s).2) := by
  constructor
  · intro n hn
    have hnn : ¬((n : ℚ) < 0) := not_lt.mpr (by positivity)
    have hset : n = 1024 ∨ n = 2048 ∨ n = 4096 ∨ n = 8192 ∨ n = 16384 := by
      simpa [validFreqs] using hn
    simp only [FrequencyPushHandler, if_neg hnn, uintOfRat_natCast]
    by_cases he : s.Frequency = n
    · simp only [if_pos he]
      exact he
    · simp only [if_neg he, if_pos hset]
      split <;> rfl
  · intro z hz
    by_cases hneg : (z : ℚ) < 0
    · simp only [FrequencyPushHandler, if_pos hneg]
      simp
    · have hz0 : 0 ≤ z := by exact_mod_cast not_lt.mp hneg
      have hnot : z.toNat ∉ validFreqs := by
        rcases hz with hneg2 | hnot
        · exact absurd (by exact_mod_cast hneg2) (not_lt.mpr (by exact_mod_cast hz0))
        · exact hnot
      have hcast : uintOfRat (z : ℚ) = z.toNat := by
        rw [uintOfRat, Int.floor_intCast]
      have hne : ¬(s.Frequency = z.toNat) := fun h => hnot (h ▸ hs)
      have hnotset : ¬(z.toNat = 1024 ∨ z.toNat = 2048 ∨ z.toNat = 4096 ∨
          z.toNat = 8192 ∨ z.toNat = 16384) := by
        simpa [validFreqs] using hnot
      simp only [FrequencyPushHandler, if_neg hneg, hcast, if_neg hne, if_neg hnotset]
      simp

/-- C1 witness: pushing 2048 stores 2048; pushing -5 leaves the state
unchanged. -/
theorem frequencyValidation_witness :
    (FrequencyPushHandler ((2048 : ℕ) : ℚ) initState).1.Frequency = 2048 ∧
    (FrequencyPushHandler ((-5 : ℤ) : ℚ) initState).1 = initState :=
  ⟨(frequencyValidation initState (by decide)).1 2048 (by decide),
    ((frequencyValidation initState (by decide)).2 (-5) (Or.inl (by decide))).1⟩

/-- C1 counterexample: pushing 32768, which the claim lists as valid, does
not store it; the stored frequency stays 1024 and a validation failure is
reported (the switch in FrequencyPushHandler has no case for 32768). -/
theorem freq32768Rejected :
    (FrequencyPushHandler 32768 initState).1.Frequency = 1024 ∧
    Event.logError ∈ (FrequencyPushHandler 32768 initState).2 := by
  decide

/-- C6: pushing any integer duty-cycle percentage in [0, 100] stores
exactly that value; pushing any rational outside [0, 100] leaves the
stored percentage unchanged. -/
theorem percentValidation (s : BuzzerState) :
    (∀ n : ℕ, n ≤ 100 → (PercentPushHandler (n : ℚ) s).1.DutyCycleOnPercent = n) ∧
    (∀ q : ℚ, q < 0 ∨ 100 < q →
      (PercentPushHandler q s).1.DutyCycleOnPercent = s.DutyCycleOnPercent) := by
  constructor
  · intro n hn
    have hr : ¬((n : ℚ) < 0 ∨ (n : ℚ) > 100) := by
      push_neg
      constructor
      · positivity
      · exact_mod_cast hn
    simp only [PercentPushHandler, if_neg hr, uintOfRat_natCast]
    by_cases hch : s.DutyCycleOnPercent ≠ n
    · simp only [if_pos hch]
      split <;> rfl
    · simp only [if_neg hch]
      push_neg at hch
      exact hch
  · intro q hq
    simp only [PercentPushHandler, if_pos hq]

/-- C6 witness: pushing 30 stores 30; pushing 101 leaves the stored value
unchanged. -/
theorem percentValidation_witness :
    (PercentPushHandler ((30 : ℕ) : ℚ) initState).1.DutyCycleOnPercent = 30 ∧
    (PercentPushHandler (101 : ℚ) initState).1.DutyCycleOnPercent =
      initState.DutyCycleOnPercent :=
  ⟨(percentValidation initState).1 30 (by norm_num),
    (percentValidation initState).2 101 (Or.inr (by norm_num))⟩

/-- C10: for stored values inside the validated ranges, the on-interval
and off-interval products computed in 32-bit unsigned arithmetic equal
the exact integer computations: PeriodMs * DutyCycleOnPercent is at most
360000000, far below 2 to the 32. -/
theorem no32BitOverflow (s : BuzzerState) (hp : s.PeriodMs ≤ 3600000)
    (hd : s.DutyCycleOnPercent ≤ 100) :
    intervalMsU32 s.PeriodMs s.DutyCycleOnPercent =
      s.PeriodMs * s.DutyCycleOnPercent / 100 ∧
    intervalMsU32 s.PeriodMs (100 - s.DutyCycleOnPercent) =
      s.PeriodMs * (100 - s.DutyCycleOnPercent) / 100 := by
  constructor
  · rw [intervalMsU32, Nat.mod_eq_of_lt]
    calc s.PeriodMs * s.DutyCycleOnPercent ≤ 3600000 * 100 := Nat.mul_le_mul hp hd
      _ < 2 ^ 32 := by norm_num
  · rw [intervalMsU32, Nat.mod_eq_of_lt]
    calc s.PeriodMs * (100 - s.DutyCycleOnPercent) ≤ 3600000 * 100 :=
        Nat.mul_le_mul hp (Nat.sub_le 100 s.DutyCycleOnPercent)
      _ < 2 ^ 32 := by norm_num

/-- C10 witness: the interval computations at the initial state. -/
theorem no32BitOverflow_witness :
    intervalMsU32 initState.PeriodMs initState.DutyCycleOnPercent =
      initState.PeriodMs * initState.DutyCycleOnPercent / 100 ∧
    intervalMsU32 initState.PeriodMs (100 - initState.DutyCycleOnPercent) =
      initState.PeriodMs * (100 - initState.DutyCycleOnPercent) / 100 :=
  no32BitOverflow initState (by decide) (by decide)

/-- C5: pushing any period in [0.1, 3600] seconds stores the floor of
input times 1000 as PeriodMs; pushing any period outside that range leaves
the stored PeriodMs unchanged. -/
theorem periodValidation (s : BuzzerState) (q : ℚ) :
    (0.1 ≤ q → q ≤ 3600 → ((PeriodPushHandler q s).1.PeriodMs : ℤ) = ⌊q * 1000⌋) ∧
    (q < 0.1 ∨ 3600 < q → (PeriodPushHandler q s).1.PeriodMs = s.PeriodMs) := by
  constructor
  · intro hlo hhi
    have hr : ¬(q < 0.1 ∨ q > 3600) := by
      push_neg
      exact ⟨hlo, hhi⟩
    have hfl0 : (0 : ℤ) ≤ ⌊q * 1000⌋ := by
      apply Int.le_floor.mpr
      push_cast
      linarith
    by_cases hch : s.PeriodMs ≠ uintOfRat (q * 1000)
    · simp only [PeriodPushHandler, if_neg hr, if_pos hch,
        StartCycle_fst_PeriodMs, StopCycle_fst_PeriodMs]
      rw [uintOfRat, Int.toNat_of_nonneg hfl0]
    · simp only [PeriodPushHandler, if_neg hr, if_neg hch]
      push_neg at hch
      rw [hch, uintOfRat, Int.toNat_of_nonneg hfl0]
  · intro hq
    simp only [PeriodPushHandler, if_pos hq]

/-- C5 witness: pushing 2 seconds stores the floor of 2000. -/
theorem periodValidation_witness :
    ((PeriodPushHandler 2 initState).1.PeriodMs : ℤ) = ⌊(2 : ℚ) * 1000⌋ :=
  (periodValidation initState 2).1 (by norm_num) (by norm_num)

/-- C3 (amended): while the buzzer is enabled with a positive stored
frequency, a timer firing never issues an off-command when the duty cycle
is 100 percent and never issues an on-command when it is 0 percent.
Operations that restart or stop the cycle (a period change, a disable) are
not covered: a period change while enabled does issue an off-command. -/
theorem timerFireBoundary (s : BuzzerState) (_hEn : s.Enabled = true)
    (hf : 0 < s.Frequency) :
    (s.DutyCycleOnPercent = 100 →
      Event.setBuzzerHz BUZZER_OFF_FREQ ∉ (TimerExpiryHandler s).2) ∧
    (s.DutyCycleOnPercent = 0 →
      Event.setBuzzerHz s.Frequency ∉ (TimerExpiryHandler s).2) := by
  constructor
  · intro hd
    by_cases hon : s.BuzzerOn = true
    · simp [TimerExpiryHandler, hon, hd]
    · simp only [TimerExpiryHandler, hon, hd]
      simp [BUZZER_OFF_FREQ]
      omega
  · intro hd
    by_cases hon : s.BuzzerOn = true
    · simp only [TimerExpiryHandler, hon, hd]
      simp [BUZZER_OFF_FREQ]
      omega
    · simp [TimerExpiryHandler, hon, hd]

/-- C3 witness: a timer firing in an enabled, on, 100 percent state issues
no off-command. -/
theorem timerFireBoundary_witness :
    Event.setBuzzerHz BUZZER_OFF_FREQ ∉
      (TimerExpiryHandler
        { initState with Enabled := true, DutyCycleOnPercent := 100, BuzzerOn := true }).2 :=
  (timerFireBoundary
    { initState with Enabled := true, DutyCycleOnPercent := 100, BuzzerOn := true }
    rfl (by decide)).1 rfl

/-- C3 counterexample: with the buzzer enabled at 100 percent duty cycle
and Phase On, a period update is an operation that issues an off-command
(setBuzzerHz 0) to the sink, contradicting the claim as stated for
operations. -/
theorem periodPushEmitsOffAt100 :
    (EnablePushHandler true (PercentPushHandler 100 initState).1).1.Enabled = true ∧
    (EnablePushHandler true (PercentPushHandler 100 initState).1).1.DutyCycleOnPercent = 100 ∧
    (EnablePushHandler true (PercentPushHandler 100 initState).1).1.BuzzerOn = true ∧
    Event.setBuzzerHz BUZZER_OFF_FREQ ∈
      (PeriodPushHandler 1 (EnablePushHandler true (PercentPushHandler 100 initState).1).1).2 := by
  refine ⟨by decide, by decide, by decide, ?_⟩
  have hg : ¬((1 : ℚ) < 0.1 ∨ (1 : ℚ) > 3600) := by norm_num
  have hu : uintOfRat ((1 : ℚ) * 1000) = 1000 := uintOfRat_eq _ 1000 (by norm_num) (by norm_num)
  simp only [PeriodPushHandler, if_neg hg, hu]
  decide

/-- C8: a valid frequency update with a changed value while Phase is On
issues exactly one sink command carrying the new frequency and leaves the
phase, the armed interval and the timer run state unchanged; while Phase
is Off it issues no sink command, stores the new frequency, and the next
Off-to-On timer transition commands the sink to the new frequency. -/
theorem frequencyChangeWhileEnabled (s : BuzzerState) (n : ℕ) (_hEn : s.Enabled = true)
    (hv : n ∈ validFreqs) (hne : s.Frequency ≠ n) :
    (s.BuzzerOn = true →
      (FrequencyPushHandler (n : ℚ) s).2 = [Event.setBuzzerHz n] ∧
      (FrequencyPushHandler (n : ℚ) s).1.Frequency = n ∧
      (FrequencyPushHandler (n : ℚ) s).1.BuzzerOn = s.BuzzerOn ∧
      (FrequencyPushHandler (n : ℚ) s).1.timerIntervalMs = s.timerIntervalMs ∧
      (FrequencyPushHandler (n : ℚ) s).1.timerRunning = s.timerRunning) ∧
    (s.BuzzerOn = false →
      (FrequencyPushHandler (n : ℚ) s).2 = [] ∧
      (FrequencyPushHandler (n : ℚ) s).1.Frequency = n ∧
      (0 < s.DutyCycleOnPercent →
        (TimerExpiryHandler (FrequencyPushHandler (n : ℚ) s).1).2.head? =
          some (Event.setBuzzerHz n))) := by
  have hnn : ¬((n : ℚ) < 0) := not_lt.mpr (by positivity)
  have hset : n = 1024 ∨ n = 2048 ∨ n = 4096 ∨ n = 8192 ∨ n = 16384 := by
    simpa [validFreqs] using hv
  constructor
  · intro hon
    simp only [FrequencyPushHandler, if_neg hnn, uintOfRat_natCast, if_neg hne,
      if_pos hset, hon]
    simp
  · intro hoff
    simp only [FrequencyPushHandler, if_neg hnn, uintOfRat_natCast, if_neg hne,
      if_pos hset, hoff]
    refine ⟨by simp, by simp, ?_⟩
    intro hd
    simp only [TimerExpiryHandler]
    simp [hoff, hd]

/-- C8 witness: pushing 2048 while enabled and On commands the sink once
with 2048 and leaves phase and timer alone. -/
theorem frequencyChangeWhileEnabled_witness :
    (FrequencyPushHandler ((2048 : ℕ) : ℚ)
      { initState with Enabled := true, BuzzerOn := true, timerRunning := true }).2 =
      [Event.setBuzzerHz 2048] :=
  ((frequencyChangeWhileEnabled
    { initState with Enabled := true, BuzzerOn := true, timerRunning := true }
    2048 rfl (by decide) (by decide)).1 rfl).1

/-- C2 (evaluation at the failing input): pushing a period of 1 second in
the initial, disabled state makes PeriodPushHandler restart the cycle
unconditionally: afterwards the timer is running and the buzzer has been
commanded on (setBuzzerHz 1024 was emitted) although Enabled is still
false, violating the claimed invariant that the timer is armed only while
enabled and the sink is off while disabled. The comment in the C source
says the restart is meant for the enabled case, but the code never checks
Enabled. -/
theorem periodRestartWhileDisabled :
    (PeriodPushHandler 1 initState).1.Enabled = false ∧
    (PeriodPushHandler 1 initState).1.timerRunning = true ∧
    (PeriodPushHandler 1 initState).1.BuzzerOn = true ∧
    Event.setBuzzerHz 1024 ∈ (PeriodPushHandler 1 initState).2 ∧
    Reachable (PeriodPushHandler 1 initState).1 := by
  have hg : ¬((1 : ℚ) < 0.1 ∨ (1 : ℚ) > 3600) := by norm_num
  have hu : uintOfRat ((1 : ℚ) * 1000) = 1000 := uintOfRat_eq _ 1000 (by norm_num) (by norm_num)
  have heval : PeriodPushHandler 1 initState =
      ({ initState with
          PeriodMs := 1000
          BuzzerOn := true
          timerRunning := true
          timerIntervalMs := some 500 },
        [Event.timerStop, Event.setBuzzerHz 1024, Event.timerSetMsInterval 500,
          Event.timerStart]) := by
    simp only [PeriodPushHandler, if_neg hg, hu]
    decide
  refine ⟨?_, ?_, ?_, ?_, ?_⟩
  · rw [heval]
    rfl
  · rw [heval]
  · rw [heval]
  · rw [heval]
    decide
  · exact Reachable.next (Op.periodPush 1) Reachable.init (fun h => Op.noConfusion h)

/-- C9 counterexample: a state with duty cycle 0 is reachable (push 0
percent in the initial disabled state), and enabling from it arms the
timer with a zero interval, so not every armed interval is positive. -/
theorem zeroIntervalArmed :
    Reachable (step (Op.percentPush 0) initState).1 ∧
    Event.timerSetMsInterval 0 ∈
      (step (Op.enablePush true) (step (Op.percentPush 0) initState).1).2 := by
  constructor
  · exact Reachable.next (Op.percentPush 0) Reachable.init (fun h => Op.noConfusion h)
  · decide

lemma interval_div_pos (p d : ℕ) (hp : 100 ≤ p) (hd : 1 ≤ d) : 0 < p * d / 100 := by
  have h100 : 100 * 1 ≤ p * d := Nat.mul_le_mul hp hd
  exact Nat.div_pos (by omega) (by norm_num)

/-- C9 (amended): in every reachable state, every interval armed on the
timer by any operation is positive unless the duty-cycle percentage in
effect after the operation is 0, in which case a zero interval is armed
(at enable, at a period change, and at a duty change while On). -/
theorem armedIntervalPositive (s : BuzzerState) (op : Op) (h : Reachable s) (ms : Nat)
    (hmem : Event.timerSetMsInterval ms ∈ (step op s).2) :
    0 < ms ∨ (step op s).1.DutyCycleOnPercent = 0 := by
  obtain ⟨h1, h2, h3⟩ := reachable_valid h
  cases op with
  | enablePush b =>
    simp only [step, EnablePushHandler] at hmem ⊢
    by_cases hc : b ≠ s.Enabled
    · simp only [if_pos hc] at hmem ⊢
      cases b with
      | true =>
        simp [StartCycle] at hmem
        rcases Nat.eq_zero_or_pos s.DutyCycleOnPercent with hd | hd
        · exact Or.inr hd
        · have := interval_div_pos s.PeriodMs s.DutyCycleOnPercent h1 hd
          omega
      | false =>
        cases hsb : s.BuzzerOn <;> simp [StopCycle, hsb] at hmem
    · simp only [if_neg hc] at hmem
      simp at hmem
  | frequencyPush q =>
    simp only [step, FrequencyPushHandler] at hmem
    split_ifs at hmem <;> simp at hmem
  | periodPush q =>
    simp only [step, PeriodPushHandler] at hmem ⊢
    by_cases hrange : q < 0.1 ∨ q > 3600
    · simp only [if_pos hrange] at hmem
      simp at hmem
    · by_cases hch : s.PeriodMs ≠ uintOfRat (q * 1000)
      · simp only [if_neg hrange, if_pos hch] at hmem ⊢
        rw [List.mem_append] at hmem
        rcases hmem with hmem | hmem
        · cases hsb : s.BuzzerOn <;> simp [StopCycle, hsb] at hmem
        · simp only [StartCycle] at hmem
          rw [StopCycle_fst_PeriodMs, StopCycle_fst_Duty] at hmem
          simp at hmem
          rcases Nat.eq_zero_or_pos s.DutyCycleOnPercent with hd | hd
          · right
            rw [StartCycle_fst_Duty, StopCycle_fst_Duty]
            exact hd
          · have hp' : 100 ≤ uintOfRat (q * 1000) := by
              have hr := hrange
              push_neg at hr
              exact le_uintOfRat_of_le 100 (q * 1000) (by push_cast; linarith [hr.1])
            have := interval_div_pos (uintOfRat (q * 1000)) s.DutyCycleOnPercent hp' hd
            omega
      · simp only [if_neg hrange, if_neg hch] at hmem
        simp at hmem
  | percentPush q =>
    simp only [step, PercentPushHandler] at hmem ⊢
    by_cases hrange : q < 0 ∨ q > 100
    · simp only [if_pos hrange] at hmem
      simp at hmem
    · by_cases hch : s.DutyCycleOnPercent ≠ uintOfRat q
      · cases hsb : s.BuzzerOn with
        | true =>
          simp only [if_neg hrange, if_pos hch, hsb, reduceIte] at hmem ⊢
          simp at hmem
          rcases Nat.eq_zero_or_pos (uintOfRat q) with hd | hd
          · exact Or.inr hd
          · have := interval_div_pos s.PeriodMs (uintOfRat q) h1 hd
            omega
        | false =>
          simp only [if_neg hrange, if_pos hch, hsb, reduceIte] at hmem
          simp at hmem
      · simp only [if_neg hrange, if_neg hch] at hmem
        simp at hmem
  | timerExpiry =>
    simp only [step, TimerExpiryHandler] at hmem ⊢
    cases hsb : s.BuzzerOn with
    | true =>
      simp only [hsb, reduceIte] at hmem ⊢
      by_cases hd100 : s.DutyCycleOnPercent < 100
      · simp only [if_pos hd100] at hmem ⊢
        simp at hmem
        have := interval_div_pos s.PeriodMs (100 - s.DutyCycleOnPercent) h1 (by omega)
        omega
      · simp only [if_neg hd100] at hmem
        simp at hmem
    | false =>
      simp only [hsb, reduceIte] at hmem ⊢
      by_cases hd0 : s.DutyCycleOnPercent > 0
      · simp only [if_pos hd0] at hmem ⊢
        simp at hmem
        have := interval_div_pos s.PeriodMs s.DutyCycleOnPercent h1 hd0
        omega
      · simp only [if_neg hd0] at hmem
        simp at hmem

/-- C9 witness: enabling in the initial state (duty cycle 50) arms the
interval 1000, which is positive. -/
theorem armedIntervalPositive_witness :
    0 < 1000 ∨ (step (Op.enablePush true) initState).1.DutyCycleOnPercent = 0 :=
  armedIntervalPositive initState (Op.enablePush true) Reachable.init 1000 (by decide)

/-- C6 counterexample: the non-integer input 50.5 lies inside [0, 100] but
the handler truncates it, so the stored percentage (50) does not equal the
input. -/
theorem percentHalfTruncated :
    ((PercentPushHandler (101 / 2 : ℚ) initState).1.DutyCycleOnPercent : ℚ) ≠ 101 / 2 := by
  have hr : ¬((101 / 2 : ℚ) < 0 ∨ (101 / 2 : ℚ) > 100) := by norm_num
  have hu : uintOfRat (101 / 2 : ℚ) = 50 := uintOfRat_eq _ 50 (by norm_num) (by norm_num)
  simp only [PercentPushHandler, if_neg hr, hu]
  norm_num [initState]
